import Mathlib

/-!
Shallow embedding of the book-review REST API (Express + Mongoose): the Book
and Review schemas, the books router (`src/models/Book.js`) and the reviews
router (with its `updateBookRating` helper), over an explicit document-store
state.

Modelling conventions:
* Mongo ObjectIds are modelled as `Nat`; `DB.nextId` is the id allocator and
  also serves as a monotone logical clock for `createdAt` / `reviewDate`.
* JS numbers are modelled as `ℚ` (ratings themselves are validated integers
  and kept as `Nat`); `x.toFixed(2)` followed by Mongoose's cast back to a
  number is modelled as exact rational rounding to hundredths, half upwards
  (`round2`), abstracting from binary floating point.
* Absent (or falsy, hence ignored) query/body parameters are `none`.
* The store's per-request sorting (`.sort(...)`) is modelled by a stable
  insertion sort on the sort key; Mongo's dynamic `sortBy` field defaults to
  the creation/review timestamp, which is what the embedding sorts by.
* `findByIdAndUpdate` / `findByIdAndDelete` touch the single document with
  the given `_id`; the embedding rewrites every entry with that key, which
  coincides with the code's behaviour because `_id` is unique in the store
  (the `WF` predicate below).
-/

/-- HTTP outcome of a route handler, per the routers' response mapping.
`conflict` is the `error.code === 11000` (duplicate ISBN) branch. -/
inductive Resp where
  | ok
  | created
  | notFound
  | badRequest
  | conflict
  deriving Repr, DecidableEq

/-- The HTTP status code each outcome is reported with. -/
def statusCode : Resp → Nat
  | .ok => 200
  | .created => 201
  | .notFound => 404
  | .badRequest => 400
  | .conflict => 400

/-- A persisted Book document (`bookSchema`). -/
structure Book where
  title : String
  author : String
  isbn : String
  publicationYear : Nat
  genre : String
  description : Option String
  publisher : Option String
  pages : Option Nat
  language : String
  averageRating : ℚ
  numberOfReviews : Nat
  createdAt : Nat
  deriving Repr, DecidableEq

/-- The JSON body of POST/PUT `/api/books`.  `new Book(req.body)` and
`findByIdAndUpdate(id, req.body)` copy every schema path present in the body,
so the derived fields `averageRating` / `numberOfReviews` are assignable by
the client whenever it sends them. -/
structure BookInput where
  title : String
  author : String
  isbn : String
  publicationYear : Nat
  genre : String
  description : Option String
  publisher : Option String
  pages : Option Nat
  language : Option String
  averageRating : Option ℚ
  numberOfReviews : Option Nat
  deriving Repr, DecidableEq

/-- A persisted Review document (`reviewSchema`). -/
structure Review where
  book : Nat
  reviewerName : String
  rating : Nat
  reviewText : String
  reviewDate : Nat
  helpful : Nat
  verified : Bool
  deriving Repr, DecidableEq

/-- The JSON body of POST/PUT `/api/reviews` (the four validated fields, plus
the optional schema paths a body may also carry). -/
structure ReviewInput where
  book : Nat
  reviewerName : String
  rating : Nat
  reviewText : String
  helpful : Option Nat
  verified : Option Bool
  deriving Repr, DecidableEq

/-- The document store: the Books and Reviews collections as keyed lists,
plus the id allocator. -/
structure DB where
  books : List (Nat × Book)
  reviews : List (Nat × Review)
  nextId : Nat
  deriving Repr, DecidableEq

/-! ### String helpers (kernel-computable stand-ins for JS string ops) -/

/-- Character-list version of `String.startsWith`. -/
def startsWithCs : List Char → List Char → Bool
  | [], _ => true
  | _ :: _, [] => false
  | a :: as, b :: bs => a == b && startsWithCs as bs

/-- Substring occurrence test on character lists. -/
def containsCs (needle hay : List Char) : Bool :=
  hay.tails.any (startsWithCs needle)

/-- Case-insensitive substring test: models `new RegExp(pat, 'i').test(s)`
for a pattern without regex metacharacters. -/
def containsCI (hay pat : String) : Bool :=
  containsCs (pat.data.map Char.toLower) (hay.data.map Char.toLower)

/-- Whitespace trimming on character lists. -/
def trimChars (cs : List Char) : List Char :=
  ((cs.dropWhile Char.isWhitespace).reverse.dropWhile Char.isWhitespace).reverse

/-- Models `String.prototype.trim` / the validator chain's `.trim()`. -/
def trimS (s : String) : String := ⟨trimChars s.data⟩

/-- String length as used by the length validators. -/
def strLen (s : String) : Nat := s.data.length

/-! ### A small regular-expression engine (Brzozowski derivatives), used to
model the ISBN format validator attached to `bookSchema.isbn`. -/

/-- Regular expressions over characters. -/
inductive RE where
  | emp
  | eps
  | cls (p : Char → Bool)
  | seq (a b : RE)
  | alt (a b : RE)
  | star (a : RE)

/-- Does the expression accept the empty string? -/
def RE.nullable : RE → Bool
  | .emp => false
  | .eps => true
  | .cls _ => false
  | .seq a b => a.nullable && b.nullable
  | .alt a b => a.nullable || b.nullable
  | .star _ => true

/-- Brzozowski derivative with respect to one character. -/
def RE.deriv : RE → Char → RE
  | .emp, _ => .emp
  | .eps, _ => .emp
  | .cls p, c => if p c then .eps else .emp
  | .seq a b, c =>
      if a.nullable then .alt (.seq (a.deriv c) b) (b.deriv c) else .seq (a.deriv c) b
  | .alt a b, c => .alt (a.deriv c) (b.deriv c)
  | .star a, c => .seq (a.deriv c) (.star a)

/-- Whole-string matching. -/
def RE.accepts (r : RE) (cs : List Char) : Bool :=
  (cs.foldl RE.deriv r).nullable

/-- Single character. -/
def RE.chr (c : Char) : RE := .cls (· == c)

/-- Literal character sequence. -/
def RE.lit : List Char → RE
  | [] => .eps
  | c :: cs => .seq (RE.chr c) (RE.lit cs)

/-- Optional occurrence, `r?`. -/
def RE.opt (r : RE) : RE := .alt .eps r

/-- One or more occurrences, `r+`. -/
def RE.plus (r : RE) : RE := .seq r (.star r)

/-- Exactly `n` occurrences, `r{n}`. -/
def RE.rep (r : RE) : Nat → RE
  | 0 => .eps
  | n + 1 => .seq r (RE.rep r n)

/-- Up to `n` occurrences, `r{0,n}`. -/
def RE.upTo (r : RE) : Nat → RE
  | 0 => .eps
  | n + 1 => .opt (.seq r (RE.upTo r n))

/-- Digit class `[0-9]`. -/
def digitC : RE := .cls Char.isDigit

/-- Separator class `[- ]`. -/
def sepC : RE := .cls (fun c => c == '-' || c == ' ')

/-- Digit-or-X class `[0-9X]`. -/
def digXC : RE := .cls (fun c => c.isDigit || c == 'X')

/-- Group pattern `(?:[0-9]+[- ]){n}` required by the lookaheads. -/
def grpRE (n : Nat) : RE := RE.rep (.seq (RE.plus digitC) sepC) n

/-- Any character, used to turn a leading lookahead into a whole-string
match. -/
def anyC : RE := .cls (fun _ => true)

/-- Lookahead alternative `[0-9X]{10}$`. -/
def isbnLook1 (cs : List Char) : Bool :=
  cs.length == 10 && cs.all (fun c => c.isDigit || c == 'X')

/-- Lookahead alternative `(?=(?:[0-9]+[- ]){3})[- 0-9X]{13}$`. -/
def isbnLook2 (cs : List Char) : Bool :=
  (RE.seq (grpRE 3) (.star anyC)).accepts cs &&
    (cs.length == 13 && cs.all (fun c => c.isDigit || c == 'X' || c == '-' || c == ' '))

/-- Lookahead alternative `97[89][0-9]{10}$`. -/
def isbnLook3 (cs : List Char) : Bool :=
  (RE.seq (RE.lit ['9', '7'])
    (RE.seq (.cls (fun c => c == '8' || c == '9')) (RE.rep digitC 10))).accepts cs

/-- Lookahead alternative `(?=(?:[0-9]+[- ]){4})[- 0-9]{17}$`. -/
def isbnLook4 (cs : List Char) : Bool :=
  (RE.seq (grpRE 4) (.star anyC)).accepts cs &&
    (cs.length == 17 && cs.all (fun c => c.isDigit || c == '-' || c == ' '))

/-- The tail of the ISBN pattern:
`(?:97[89][- ]?)?[0-9]{1,5}[- ]?[0-9]+[- ]?[0-9]+[- ]?[0-9X]$`. -/
def isbnTail : RE :=
  .seq (.opt (.seq (RE.lit ['9', '7'])
        (.seq (.cls (fun c => c == '8' || c == '9')) (.opt sepC))))
    (.seq (.seq digitC (RE.upTo digitC 4))
      (.seq (.opt sepC) (.seq (RE.plus digitC)
        (.seq (.opt sepC) (.seq (RE.plus digitC) (.seq (.opt sepC) digXC))))))

/-- The optional lead-in `(?:ISBN(?:-1[03])?:? )?`, enumerated. -/
def isbnLeads : List String :=
  ["", "ISBN ", "ISBN: ", "ISBN-10 ", "ISBN-10: ", "ISBN-13 ", "ISBN-13: "]

/-- Models the `bookSchema.isbn` validator regex
`^(?:ISBN(?:-1[03])?:? )?(?=[0-9X]{10}$|(?=(?:[0-9]+[- ]){3})[- 0-9X]{13}$|97[89][0-9]{10}$|(?=(?:[0-9]+[- ]){4})[- 0-9]{17}$)(?:97[89][- ]?)?[0-9]{1,5}[- ]?[0-9]+[- ]?[0-9]+[- ]?[0-9X]$`. -/
def isbnValid (s : String) : Bool :=
  isbnLeads.any (fun lead =>
    startsWithCs lead.data s.data &&
      (let rest := s.data.drop lead.data.length
       (isbnLook1 rest || isbnLook2 rest || isbnLook3 rest || isbnLook4 rest) &&
         isbnTail.accepts rest))

/-! ### Validation -/

/-- The `genre` enum of `bookSchema`. -/
def genres : List String :=
  ["Fiction", "Non-Fiction", "Science Fiction", "Fantasy", "Mystery", "Thriller",
   "Romance", "Horror", "Biography", "History", "Science", "Self-Help", "Other"]

/-- Value of `new Date().getFullYear()` at specification time. -/
def currentYear : Nat := 2026

/-- Models the `validateBook` express-validator chain (books router). -/
def validateBook (b : BookInput) : Bool :=
  (!(trimS b.title).data.isEmpty && strLen (trimS b.title) ≤ 200) &&
  (!(trimS b.author).data.isEmpty && strLen (trimS b.author) ≤ 100) &&
  !(trimS b.isbn).data.isEmpty &&
  (1000 ≤ b.publicationYear && b.publicationYear ≤ currentYear) &&
  genres.contains b.genre

/-- Models the Mongoose `bookSchema` document validation run by `book.save()`
and (with `runValidators: true`) by the book update.  `numberOfReviews ≥ 0`
holds by the `Nat` model. -/
def mongooseValidBook (b : Book) : Bool :=
  (1 ≤ strLen b.title && strLen b.title ≤ 200) &&
  (1 ≤ strLen b.author && strLen b.author ≤ 100) &&
  isbnValid b.isbn &&
  (1000 ≤ b.publicationYear && b.publicationYear ≤ currentYear) &&
  genres.contains b.genre &&
  (match b.description with | some d => strLen d ≤ 1000 | none => true) &&
  (match b.publisher with | some p => strLen p ≤ 100 | none => true) &&
  (match b.pages with | some n => 1 ≤ n | none => true) &&
  (0 ≤ b.averageRating && b.averageRating ≤ 5)

/-- The Book document built by `new Book(req.body)` (schema `trim`s and
defaults applied; derived fields taken from the body when present). -/
def bookOfInput (b : BookInput) (ts : Nat) : Book :=
  { title := trimS b.title
    author := trimS b.author
    isbn := trimS b.isbn
    publicationYear := b.publicationYear
    genre := trimS b.genre
    description := b.description.map trimS
    publisher := b.publisher.map trimS
    pages := b.pages
    language := (b.language.map trimS).getD "English"
    averageRating := b.averageRating.getD 0
    numberOfReviews := b.numberOfReviews.getD 0
    createdAt := ts }

/-- Models the `validateReview` express-validator chain (reviews router); the
Mongoose `reviewSchema` validation re-checks the same bounds on these fields.
`body('book').isMongoId()` is vacuous under the `Nat` id model. -/
def validateReview (r : ReviewInput) : Bool :=
  (2 ≤ strLen (trimS r.reviewerName) && strLen (trimS r.reviewerName) ≤ 100) &&
  (1 ≤ r.rating && r.rating ≤ 5) &&
  (10 ≤ strLen (trimS r.reviewText) && strLen (trimS r.reviewText) ≤ 2000)

/-- The Review document built by `new Review(req.body)`. -/
def reviewOfInput (r : ReviewInput) (ts : Nat) : Review :=
  { book := r.book
    reviewerName := trimS r.reviewerName
    rating := r.rating
    reviewText := trimS r.reviewText
    reviewDate := ts
    helpful := r.helpful.getD 0
    verified := r.verified.getD false }

/-! ### Store primitives -/

/-- Models `Book.findById(id)`. -/
def lookupBook (id : Nat) (db : DB) : Option Book :=
  (db.books.find? (fun p => p.1 == id)).map Prod.snd

/-- Models `Review.findById(id)`. -/
def lookupReview (id : Nat) (db : DB) : Option Review :=
  (db.reviews.find? (fun p => p.1 == id)).map Prod.snd

/-- Rewrite the entry with the given key (`findByIdAndUpdate`; a no-op when
the key is absent). -/
def updEntry {β : Type} (id : Nat) (f : β → β) (l : List (Nat × β)) : List (Nat × β) :=
  l.map (fun p => if p.1 == id then (p.1, f p.2) else p)

/-- Models `Book.findByIdAndUpdate(bookId, { averageRating, numberOfReviews })`. -/
def setBookAgg (id : Nat) (avg : ℚ) (n : Nat) (db : DB) : DB :=
  { db with books :=
      updEntry id (fun b => { b with averageRating := avg, numberOfReviews := n }) db.books }

/-- Models `Review.findByIdAndUpdate(id, ...)` on the reviews collection. -/
def mapReview (id : Nat) (f : Review → Review) (db : DB) : DB :=
  { db with reviews := updEntry id f db.reviews }

/-- Floor of a rational, computed from its reduced fraction. -/
def floorQ (q : ℚ) : ℤ := Int.fdiv q.num q.den

/-- Rounding to the nearest integer, halves upwards — the rounding performed
by `Number.prototype.toFixed` on the exact value. -/
def roundQ (q : ℚ) : ℤ := floorQ (q + 1 / 2)

/-- Models `x.toFixed(2)` followed by Mongoose's cast back to a number: exact
rounding to hundredths. -/
def round2 (q : ℚ) : ℚ := (roundQ (q * 100) : ℚ) / 100

/-- Models `Review.find({ book: bookId })`. -/
def reviewsFor (bookId : Nat) (db : DB) : List (Nat × Review) :=
  db.reviews.filter (fun p => p.2.book == bookId)

/-- The `updateBookRating` helper of the reviews router: recompute a book's
aggregate fields from its current review set. -/
def updateBookRating (bookId : Nat) (db : DB) : DB :=
  let reviews := reviewsFor bookId db
  if reviews.length = 0 then
    setBookAgg bookId 0 0 db
  else
    let totalRating : ℚ := reviews.foldl (fun sum p => sum + (p.2.rating : ℚ)) 0
    let averageRating : ℚ := totalRating / (reviews.length : ℚ)
    setBookAgg bookId (round2 averageRating) reviews.length db

/-! ### The books router -/

/-- Query parameters of GET `/api/books` (`sortBy` defaults to `createdAt`,
which is the key the embedding sorts on; `order` is `asc` exactly when
`orderAsc`). -/
structure BookQuery where
  genre : Option String
  author : Option String
  search : Option String
  page : Option Nat
  limit : Option Nat
  orderAsc : Bool
  deriving Repr, DecidableEq

/-- The Mongo filter built by GET `/api/books`. -/
def matchesBookQuery (q : BookQuery) (b : Book) : Bool :=
  (match q.genre with | some g => b.genre == g | none => true) &&
  (match q.author with | some a => containsCI b.author a | none => true) &&
  (match q.search with
   | some s =>
       containsCI b.title s || containsCI b.author s ||
         (match b.description with | some d => containsCI d s | none => false)
   | none => true)

/-- Sort-key comparison for the books query. -/
def bookLe (asc : Bool) (a b : Nat × Book) : Bool :=
  if asc then Nat.ble a.2.createdAt b.2.createdAt else Nat.ble b.2.createdAt a.2.createdAt

/-- The `{ books, pagination }` payload of GET `/api/books`. -/
structure BooksPage where
  books : List (Nat × Book)
  page : Nat
  limit : Nat
  total : Nat
  pages : Nat
  deriving Repr, DecidableEq

/-- GET `/api/books`: filter, sort, then `skip = (page-1)*limit` and `limit`,
with `pages = Math.ceil(total / limit)`. -/
def booksIndex (q : BookQuery) (db : DB) : BooksPage :=
  let page := q.page.getD 1
  let limit := q.limit.getD 10
  let skip := (page - 1) * limit
  let matching := db.books.filter (fun p => matchesBookQuery q p.2)
  let sorted := matching.insertionSort (fun a b => bookLe q.orderAsc a b = true)
  let total := matching.length
  { books := (sorted.drop skip).take limit
    page := page
    limit := limit
    total := total
    pages := (total + limit - 1) / limit }

/-- POST `/api/books`: validation, `new Book(req.body)`, `book.save()` (schema
validation, then the unique-ISBN index, `error.code 11000` → conflict). -/
def booksCreate (input : BookInput) (db : DB) : DB × Resp :=
  if !validateBook input then (db, .badRequest)
  else
    let book := bookOfInput input db.nextId
    if !mongooseValidBook book then (db, .badRequest)
    else if db.books.any (fun p => p.2.isbn == book.isbn) then (db, .conflict)
    else ({ db with books := db.books ++ [(db.nextId, book)], nextId := db.nextId + 1 },
          .created)

/-- The effect of `findByIdAndUpdate(id, req.body)` on a Book: paths present
in the body are replaced, absent ones keep their stored value. -/
def applyBookUpdate (old : Book) (input : BookInput) : Book :=
  { title := trimS input.title
    author := trimS input.author
    isbn := trimS input.isbn
    publicationYear := input.publicationYear
    genre := trimS input.genre
    description := match input.description with | some d => some (trimS d) | none => old.description
    publisher := match input.publisher with | some p => some (trimS p) | none => old.publisher
    pages := match input.pages with | some n => some n | none => old.pages
    language := match input.language with | some s => trimS s | none => old.language
    averageRating := input.averageRating.getD old.averageRating
    numberOfReviews := input.numberOfReviews.getD old.numberOfReviews
    createdAt := old.createdAt }

/-- PUT `/api/books/:id`: validation, `findByIdAndUpdate(id, req.body,
{ new: true, runValidators: true })`, duplicate-ISBN conflict mapping. -/
def booksUpdate (id : Nat) (input : BookInput) (db : DB) : DB × Resp :=
  if !validateBook input then (db, .badRequest)
  else
    match lookupBook id db with
    | none => (db, .notFound)
    | some old =>
      if !mongooseValidBook (applyBookUpdate old input) then (db, .badRequest)
      else if db.books.any (fun p => p.1 != id && p.2.isbn == trimS input.isbn) then
        (db, .conflict)
      else ({ db with books := updEntry id (fun b => applyBookUpdate b input) db.books }, .ok)

/-- DELETE `/api/books/:id`: `Book.findByIdAndDelete(id)` first, then
`Review.deleteMany({ book: id })`. -/
def booksDelete (id : Nat) (db : DB) : DB × Resp :=
  match lookupBook id db with
  | none => (db, .notFound)
  | some _ =>
    let db1 : DB := { db with books := db.books.filter (fun p => p.1 != id) }
    let db2 : DB := { db1 with reviews := db1.reviews.filter (fun p => p.2.book != id) }
    (db2, .ok)

/-! ### The reviews router -/

/-- Query parameters of GET `/api/reviews` (`sort` defaults to `reviewDate`,
the key the embedding sorts on). -/
structure ReviewQuery where
  book : Option Nat
  rating : Option Nat
  orderAsc : Bool
  deriving Repr, DecidableEq

/-- The Mongo filter built by GET `/api/reviews`. -/
def matchesReviewQuery (q : ReviewQuery) (r : Review) : Bool :=
  (match q.book with | some b => r.book == b | none => true) &&
  (match q.rating with | some n => r.rating == n | none => true)

/-- Sort-key comparison for the reviews query. -/
def reviewLe (asc : Bool) (a b : Nat × Review) : Bool :=
  if asc then Nat.ble a.2.reviewDate b.2.reviewDate else Nat.ble b.2.reviewDate a.2.reviewDate

/-- Models `.populate('book', 'title author')`: join the referenced Book's title and
author onto a review. -/
def populateBook (db : DB) (p : Nat × Review) : Nat × Review × Option (String × String) :=
  (p.1, p.2, (lookupBook p.2.book db).map (fun b => (b.title, b.author)))

/-- GET `/api/reviews`: filter and sort; no pagination is applied. -/
def reviewsIndex (q : ReviewQuery) (db : DB) : List (Nat × Review × Option (String × String)) :=
  (((db.reviews.filter (fun p => matchesReviewQuery q p.2)).insertionSort
      (fun a b => reviewLe q.orderAsc a b = true)).map (populateBook db))

/-- POST `/api/reviews`: validation, referenced-Book existence check,
`review.save()`, then `updateBookRating(req.body.book)`. -/
def reviewsCreate (input : ReviewInput) (db : DB) : DB × Resp :=
  if !validateReview input then (db, .badRequest)
  else
    match lookupBook input.book db with
    | none => (db, .notFound)
    | some _ =>
      let db1 : DB :=
        { db with reviews := db.reviews ++ [(db.nextId, reviewOfInput input db.nextId)],
                  nextId := db.nextId + 1 }
      (updateBookRating input.book db1, .created)

/-- The effect of `findByIdAndUpdate(id, req.body)` on a Review. -/
def applyReviewUpdate (old : Review) (input : ReviewInput) : Review :=
  { book := input.book
    reviewerName := trimS input.reviewerName
    rating := input.rating
    reviewText := trimS input.reviewText
    reviewDate := old.reviewDate
    helpful := input.helpful.getD old.helpful
    verified := input.verified.getD old.verified }

/-- PUT `/api/reviews/:id`: validation, referenced-Book existence check, prior
Review fetch, persist, recompute the old book's aggregate unconditionally and
the new book's aggregate exactly when the reference changed. -/
def reviewsUpdate (id : Nat) (input : ReviewInput) (db : DB) : DB × Resp :=
  if !validateReview input then (db, .badRequest)
  else
    match lookupBook input.book db with
    | none => (db, .notFound)
    | some _ =>
      match lookupReview id db with
      | none => (db, .notFound)
      | some oldReview =>
        let db1 := mapReview id (fun r => applyReviewUpdate r input) db
        let db2 := updateBookRating oldReview.book db1
        let db3 := if oldReview.book ≠ input.book then updateBookRating input.book db2 else db2
        (db3, .ok)

/-- DELETE `/api/reviews/:id`: fetch, `findByIdAndDelete`, then recompute the
book's aggregate. -/
def reviewsDelete (id : Nat) (db : DB) : DB × Resp :=
  match lookupReview id db with
  | none => (db, .notFound)
  | some review =>
    let db1 : DB := { db with reviews := db.reviews.filter (fun p => p.1 != id) }
    (updateBookRating review.book db1, .ok)

/-- PATCH `/api/reviews/:id/helpful`: `findByIdAndUpdate(id, { $inc:
{ helpful: 1 } })` — a single atomic store operation per call, so concurrent
calls serialize into iterated applications of this step. -/
def reviewsHelpful (id : Nat) (db : DB) : DB × Resp :=
  match lookupReview id db with
  | none => (db, .notFound)
  | some _ => (mapReview id (fun r => { r with helpful := r.helpful + 1 }) db, .ok)

/-- The state transformation of one PATCH `/:id/helpful` call. -/
def helpfulStep (id : Nat) (db : DB) : DB := (reviewsHelpful id db).1

/-! ### Invariants -/

/-- One Book entry's aggregate fields match a review collection: the claimed
derived-field invariant, stated against an explicit review list. -/
def consistentAt (reviews : List (Nat × Review)) (p : Nat × Book) : Bool :=
  let rs := reviews.filter (fun q => q.2.book == p.1)
  p.2.numberOfReviews == rs.length &&
    p.2.averageRating ==
      (if rs.length = 0 then 0
       else round2 (((rs.map (fun q => (q.2.rating : ℚ))).sum) / (rs.length : ℚ)))

/-- Every stored Book's `averageRating` / `numberOfReviews` equal the rounded
mean and count of the Reviews currently referencing it. -/
def aggConsistent (db : DB) : Bool := db.books.all (consistentAt db.reviews)

/-- Store well-formedness: `_id`s are unique (the store's primary-key
guarantee) and all allocated ids and stored book references lie below the
allocator. -/
def WF (db : DB) : Prop :=
  (db.books.map Prod.fst).Nodup ∧ (db.reviews.map Prod.fst).Nodup ∧
  (∀ p ∈ db.books, p.1 < db.nextId) ∧
  (∀ q ∈ db.reviews, q.1 < db.nextId ∧ q.2.book < db.nextId)

/-! ### Concrete sample states (used by witnesses and counterexamples) -/

/-- The empty store. -/
def emptyDB : DB := { books := [], reviews := [], nextId := 0 }

/-- A well-formed Book value. -/
def bookA : Book :=
  { title := "T", author := "A", isbn := "978-3-16-148410-0", publicationYear := 2020,
    genre := "Fiction", description := none, publisher := none, pages := none,
    language := "English", averageRating := 0, numberOfReviews := 0, createdAt := 0 }

/-- A Review value referencing book `bid`. -/
def reviewR (bid rating ts : Nat) : Review :=
  { book := bid, reviewerName := "Reviewer", rating := rating,
    reviewText := "This is a great book!", reviewDate := ts, helpful := 0, verified := false }

/-- One book, two reviews with ratings 4 and 5, aggregates in sync
(`averageRating = 4.50`, `numberOfReviews = 2`). -/
def dbTwoReviews : DB :=
  { books := [(0, { bookA with averageRating := 9 / 2, numberOfReviews := 2 })],
    reviews := [(1, reviewR 0 4 1), (2, reviewR 0 5 2)],
    nextId := 3 }

/-- The POST `/api/books` body used by the examples. -/
def sampleBookInput : BookInput :=
  { title := "T", author := "A", isbn := "978-3-16-148410-0", publicationYear := 2020,
    genre := "Fiction", description := none, publisher := none, pages := none,
    language := none, averageRating := none, numberOfReviews := none }

/-- The store after the sample book is created in the empty store. -/
def dbOneBook : DB :=
  { books := [(0, bookOfInput sampleBookInput 0)], reviews := [], nextId := 1 }

/-- A POST `/api/books` body that also sets the derived fields. -/
def massAssignInput : BookInput :=
  { sampleBookInput with averageRating := some 5, numberOfReviews := some 1 }

/-- A valid POST `/api/reviews` body referencing book 0. -/
def sampleReviewInput : ReviewInput :=
  { book := 0, reviewerName := "Reviewer", rating := 3,
    reviewText := "This is a great book!", helpful := none, verified := none }

/-- Twenty-five copies of the sample book (distinct ids and timestamps). -/
def db25 : DB :=
  { books := (List.range 25).map (fun i => (i, { bookA with createdAt := i })),
    reviews := [], nextId := 25 }

/-- The all-defaults books query with an explicit page and limit. -/
def pageQuery (page limit : Nat) : BookQuery :=
  { genre := none, author := none, search := none,
    page := some page, limit := some limit, orderAsc := false }

/-- The all-defaults reviews query. -/
def allReviewsQuery : ReviewQuery := { book := none, rating := none, orderAsc := false }

/-! ## Theorems -/

/-! ### Helper lemmas about the store primitives -/

theorem find?_updEntry {β : Type} (id : Nat) (f : β → β) (l : List (Nat × β)) :
    (updEntry id f l).find? (fun p => p.1 == id) =
      (l.find? (fun p => p.1 == id)).map (fun p => (p.1, f p.2)) := by
  induction l with
  | nil => rfl
  | cons a t ih =>
    unfold updEntry at *
    by_cases h : (a.1 == id) = true
    · rw [List.map_cons, if_pos h, List.find?_cons, List.find?_cons]
      dsimp only
      rw [h]
      rfl
    · have h' : (a.1 == id) = false := by simpa using h
      rw [List.map_cons, if_neg h, List.find?_cons, List.find?_cons]
      rw [h']
      exact ih

theorem lookupBook_setBookAgg (id : Nat) (a : ℚ) (n : Nat) (db : DB) :
    lookupBook id (setBookAgg id a n db) =
      (lookupBook id db).map (fun b => { b with averageRating := a, numberOfReviews := n }) := by
  unfold lookupBook setBookAgg
  dsimp only
  rw [find?_updEntry]
  cases db.books.find? (fun p => p.1 == id) <;> rfl

theorem lookupReview_mapReview (id : Nat) (f : Review → Review) (db : DB) :
    lookupReview id (mapReview id f db) = (lookupReview id db).map f := by
  unfold lookupReview mapReview
  dsimp only
  rw [find?_updEntry]
  cases db.reviews.find? (fun p => p.1 == id) <;> rfl

theorem reviews_setBookAgg (id : Nat) (a : ℚ) (n : Nat) (db : DB) :
    (setBookAgg id a n db).reviews = db.reviews := rfl

theorem reviews_updateBookRating (id : Nat) (db : DB) :
    (updateBookRating id db).reviews = db.reviews := by
  unfold updateBookRating
  dsimp only
  split <;> rfl

theorem reviewsFor_updateBookRating (bid id : Nat) (db : DB) :
    reviewsFor bid (updateBookRating id db) = reviewsFor bid db := by
  unfold reviewsFor
  rw [reviews_updateBookRating]

theorem updateBookRating_eq (id : Nat) (db : DB) :
    updateBookRating id db =
      if (reviewsFor id db).length = 0 then setBookAgg id 0 0 db
      else
        setBookAgg id
          (round2 (((reviewsFor id db).foldl (fun sum p => sum + (p.2.rating : ℚ)) 0) /
            ((reviewsFor id db).length : ℚ)))
          (reviewsFor id db).length db := rfl

theorem setBookAgg_absorb (id : Nat) (a a' : ℚ) (n n' : Nat) (db : DB) :
    setBookAgg id a n (setBookAgg id a' n' db) = setBookAgg id a n db := by
  unfold setBookAgg updEntry
  congr 1
  dsimp only
  rw [List.map_map]
  apply List.map_congr_left
  intro p _
  by_cases h : (p.1 == id) = true
  · simp only [Function.comp, if_pos h]
  · simp only [Function.comp, if_neg h]

theorem foldl_add_rating (l : List (Nat × Review)) (init : ℚ) :
    l.foldl (fun sum p => sum + (p.2.rating : ℚ)) init =
      init + (l.map (fun p => (p.2.rating : ℚ))).sum := by
  induction l generalizing init with
  | nil => simp
  | cons a t ih => simp [ih, add_assoc]

/-! ### C1 and C4 -/

/-- C1: for every book id, `updateBookRating` (the recompute of the Rating
Aggregator) sets the stored Book's `numberOfReviews` to the number of Reviews
referencing it and `averageRating` to the sum of their ratings divided by the
count, rounded to 2 decimal places — and to `(0, 0)` when no Review
references it. -/
theorem updateBookRating_recompute (bookId : Nat) (db : DB) (b : Book)
    (hb : lookupBook bookId db = some b) :
    ∃ b', lookupBook bookId (updateBookRating bookId db) = some b' ∧
      b'.numberOfReviews = (reviewsFor bookId db).length ∧
      b'.averageRating =
        (if (reviewsFor bookId db).length = 0 then 0
         else round2 ((((reviewsFor bookId db).map (fun q => (q.2.rating : ℚ))).sum) /
           ((reviewsFor bookId db).length : ℚ))) := by
  have hset : ∀ (a : ℚ) (n : Nat),
      lookupBook bookId (setBookAgg bookId a n db) =
        some { b with averageRating := a, numberOfReviews := n } := by
    intro a n
    rw [lookupBook_setBookAgg, hb]
    rfl
  rw [updateBookRating_eq]
  by_cases h : (reviewsFor bookId db).length = 0
  · rw [if_pos h]
    exact ⟨_, hset 0 0, by simp [h], by simp [h]⟩
  · rw [if_neg h]
    refine ⟨_, hset _ _, rfl, ?_⟩
    rw [if_neg h, foldl_add_rating, zero_add]

/-- Witness for C1 at a concrete store: one book with two reviews rated 4
and 5. -/
theorem updateBookRating_recompute_witness :
    ∃ b', lookupBook 0 (updateBookRating 0 dbTwoReviews) = some b' ∧
      b'.numberOfReviews = (reviewsFor 0 dbTwoReviews).length ∧
      b'.averageRating =
        (if (reviewsFor 0 dbTwoReviews).length = 0 then 0
         else round2 ((((reviewsFor 0 dbTwoReviews).map (fun q => (q.2.rating : ℚ))).sum) /
           ((reviewsFor 0 dbTwoReviews).length : ℚ))) :=
  updateBookRating_recompute 0 dbTwoReviews
    { bookA with averageRating := 9 / 2, numberOfReviews := 2 } (by rfl)

/-- C4: `updateBookRating` leaves the Review set unchanged, and running it a
second time (against that unchanged Review set) produces exactly the state of
running it once — the recompute is idempotent. -/
theorem updateBookRating_idem (bookId : Nat) (db : DB) :
    (updateBookRating bookId db).reviews = db.reviews ∧
    updateBookRating bookId (updateBookRating bookId db) = updateBookRating bookId db := by
  refine ⟨reviews_updateBookRating bookId db, ?_⟩
  have hrf : reviewsFor bookId (updateBookRating bookId db) = reviewsFor bookId db :=
    reviewsFor_updateBookRating bookId bookId db
  rw [updateBookRating_eq bookId (updateBookRating bookId db), hrf, updateBookRating_eq bookId db]
  by_cases h : (reviewsFor bookId db).length = 0
  · rw [if_pos h, if_pos h, setBookAgg_absorb]
  · rw [if_neg h, if_neg h, setBookAgg_absorb]

theorem lookupReview_updateBookRating (j i : Nat) (db : DB) :
    lookupReview j (updateBookRating i db) = lookupReview j db := by
  unfold lookupReview
  rw [reviews_updateBookRating]

/-! ### C3 -/

/-- C3: deleting an existing Book removes the Book (first) and every Review
referencing it (second); afterwards no Review referencing it remains in the
store, and in particular none is reachable through GET `/api/reviews`. -/
theorem booksDelete_cascade (id : Nat) (db : DB) (b : Book)
    (hb : lookupBook id db = some b) :
    (booksDelete id db).2 = .ok ∧
    (booksDelete id db).1.books = db.books.filter (fun p => p.1 != id) ∧
    (booksDelete id db).1.reviews = db.reviews.filter (fun p => p.2.book != id) ∧
    lookupBook id (booksDelete id db).1 = none ∧
    (∀ q ∈ (booksDelete id db).1.reviews, q.2.book ≠ id) ∧
    (∀ (qry : ReviewQuery) (x : Nat × Review × Option (String × String)),
      x ∈ reviewsIndex qry (booksDelete id db).1 → x.2.1.book ≠ id) := by
  have hdel : booksDelete id db =
      ({ db with books := db.books.filter (fun p => p.1 != id),
                 reviews := db.reviews.filter (fun p => p.2.book != id) }, .ok) := by
    unfold booksDelete
    rw [hb]
  rw [hdel]
  have hnone : List.find? (fun p => p.1 == id) (db.books.filter (fun p => p.1 != id)) = none := by
    apply List.find?_eq_none.mpr
    intro x hx
    have hx2 := (List.mem_filter.mp hx).2
    simpa using hx2
  refine ⟨rfl, rfl, rfl, ?_, ?_, ?_⟩
  · show (List.find? (fun p => p.1 == id) (db.books.filter (fun p => p.1 != id))).map Prod.snd
        = none
    rw [hnone]
    rfl
  · intro q hq
    have hq2 := (List.mem_filter.mp hq).2
    simpa using hq2
  · intro qry x hx
    unfold reviewsIndex at hx
    obtain ⟨y, hy, rfl⟩ := List.mem_map.mp hx
    rw [(List.perm_insertionSort _ _).mem_iff] at hy
    have hy1 := (List.mem_filter.mp hy).1
    have hy2 := (List.mem_filter.mp hy1).2
    simpa [populateBook] using hy2

/-- Witness for C3: deleting book 0 from the two-review store. -/
theorem booksDelete_cascade_witness :
    (booksDelete 0 dbTwoReviews).2 = .ok ∧
    (booksDelete 0 dbTwoReviews).1.books = dbTwoReviews.books.filter (fun p => p.1 != 0) ∧
    (booksDelete 0 dbTwoReviews).1.reviews = dbTwoReviews.reviews.filter (fun p => p.2.book != 0) ∧
    lookupBook 0 (booksDelete 0 dbTwoReviews).1 = none ∧
    (∀ q ∈ (booksDelete 0 dbTwoReviews).1.reviews, q.2.book ≠ 0) ∧
    (∀ (qry : ReviewQuery) (x : Nat × Review × Option (String × String)),
      x ∈ reviewsIndex qry (booksDelete 0 dbTwoReviews).1 → x.2.1.book ≠ 0) :=
  booksDelete_cascade 0 dbTwoReviews
    { bookA with averageRating := 9 / 2, numberOfReviews := 2 } (by rfl)

/-! ### C5 -/

/-- C5: a Review update whose referenced Book and prior Review both exist
succeeds, persists the new field values, and recomputes the aggregate of the
old book reference unconditionally and of the new reference exactly when the
reference changed. -/
theorem reviewsUpdate_cascade (id : Nat) (input : ReviewInput) (db : DB) (b : Book)
    (old : Review)
    (hv : validateReview input = true)
    (hb : lookupBook input.book db = some b)
    (hr : lookupReview id db = some old) :
    reviewsUpdate id input db =
      ((if old.book ≠ input.book then
          updateBookRating input.book
            (updateBookRating old.book (mapReview id (fun r => applyReviewUpdate r input) db))
        else updateBookRating old.book (mapReview id (fun r => applyReviewUpdate r input) db)),
       .ok) ∧
    lookupReview id (reviewsUpdate id input db).1 = some (applyReviewUpdate old input) := by
  have heq : reviewsUpdate id input db =
      ((if old.book ≠ input.book then
          updateBookRating input.book
            (updateBookRating old.book (mapReview id (fun r => applyReviewUpdate r input) db))
        else updateBookRating old.book (mapReview id (fun r => applyReviewUpdate r input) db)),
       .ok) := by
    unfold reviewsUpdate
    rw [hv, hb, hr]
    rfl
  refine ⟨heq, ?_⟩
  rw [heq]
  have hpersist : lookupReview id (mapReview id (fun r => applyReviewUpdate r input) db)
      = some (applyReviewUpdate old input) := by
    rw [lookupReview_mapReview, hr]
    rfl
  by_cases hc : old.book ≠ input.book
  · rw [if_pos hc]
    show lookupReview id _ = _
    rw [lookupReview_updateBookRating, lookupReview_updateBookRating, hpersist]
  · rw [if_neg hc]
    show lookupReview id _ = _
    rw [lookupReview_updateBookRating, hpersist]

/-- Witness for C5: updating review 1 of the two-review store (book reference
unchanged). -/
theorem reviewsUpdate_cascade_witness :
    reviewsUpdate 1 sampleReviewInput dbTwoReviews =
      ((if (reviewR 0 4 1).book ≠ sampleReviewInput.book then
          updateBookRating sampleReviewInput.book
            (updateBookRating (reviewR 0 4 1).book
              (mapReview 1 (fun r => applyReviewUpdate r sampleReviewInput) dbTwoReviews))
        else updateBookRating (reviewR 0 4 1).book
          (mapReview 1 (fun r => applyReviewUpdate r sampleReviewInput) dbTwoReviews)),
       .ok) ∧
    lookupReview 1 (reviewsUpdate 1 sampleReviewInput dbTwoReviews).1
      = some (applyReviewUpdate (reviewR 0 4 1) sampleReviewInput) :=
  reviewsUpdate_cascade 1 sampleReviewInput dbTwoReviews
    { bookA with averageRating := 9 / 2, numberOfReviews := 2 } (reviewR 0 4 1)
    (by decide) (by rfl) (by rfl)

/-! ### C6 -/

/-- C6: a well-formed Review creation whose referenced Book does not exist
fails with the 404 not-found response and leaves the store unchanged — no
Review is persisted and no Book aggregate moves. -/
theorem reviewsCreate_book_missing (input : ReviewInput) (db : DB)
    (hv : validateReview input = true) (hb : lookupBook input.book db = none) :
    reviewsCreate input db = (db, .notFound) ∧
    statusCode (reviewsCreate input db).2 = 404 ∧
    (reviewsCreate input db).1.reviews = db.reviews ∧
    (reviewsCreate input db).1.books = db.books := by
  have heq : reviewsCreate input db = (db, .notFound) := by
    unfold reviewsCreate
    rw [hv, hb]
    rfl
  rw [heq]
  exact ⟨rfl, rfl, rfl, rfl⟩

/-- Witness for C6: creating a valid review against the empty store (book 0
absent). -/
theorem reviewsCreate_book_missing_witness :
    reviewsCreate sampleReviewInput emptyDB = (emptyDB, .notFound) ∧
    statusCode (reviewsCreate sampleReviewInput emptyDB).2 = 404 ∧
    (reviewsCreate sampleReviewInput emptyDB).1.reviews = emptyDB.reviews ∧
    (reviewsCreate sampleReviewInput emptyDB).1.books = emptyDB.books :=
  reviewsCreate_book_missing sampleReviewInput emptyDB (by decide) (by rfl)

/-! ### C9 -/

/-- C9: each PATCH `/:id/helpful` call on an existing Review is a single
atomic store-level increment, so `N` such calls — in whatever order the store
serializes them — raise `helpful` by exactly `N`; on an absent id the call
responds 404 and changes nothing. -/
theorem reviewsHelpful_atomic (id : Nat) (db : DB) :
    (∀ r, lookupReview id db = some r →
      ∀ N : Nat, lookupReview id ((helpfulStep id)^[N] db)
        = some { r with helpful := r.helpful + N }) ∧
    (lookupReview id db = none → reviewsHelpful id db = (db, .notFound)) := by
  constructor
  · intro r hr N
    have hstep : ∀ (st : DB) (rn : Review), lookupReview id st = some rn →
        lookupReview id (helpfulStep id st) = some { rn with helpful := rn.helpful + 1 } := by
      intro st rn hst
      unfold helpfulStep reviewsHelpful
      rw [hst]
      dsimp only
      rw [lookupReview_mapReview, hst]
      rfl
    induction N with
    | zero => simpa using hr
    | succ n ihn =>
      rw [Function.iterate_succ_apply']
      exact hstep _ _ ihn
  · intro hn
    unfold reviewsHelpful
    rw [hn]

/-- Witness for C9: three increments on review 1 of the two-review store, and
the 404 branch at an absent id. -/
theorem reviewsHelpful_atomic_witness :
    lookupReview 1 ((helpfulStep 1)^[3] dbTwoReviews)
      = some { reviewR 0 4 1 with helpful := (reviewR 0 4 1).helpful + 3 } ∧
    reviewsHelpful 99 dbTwoReviews = (dbTwoReviews, .notFound) :=
  ⟨(reviewsHelpful_atomic 1 dbTwoReviews).1 (reviewR 0 4 1) (by rfl) 3,
   (reviewsHelpful_atomic 99 dbTwoReviews).2 (by rfl)⟩

/-! ### C10 -/

/-- C10: GET `/api/reviews` applies no pagination — for every filter it
returns exactly the matching Reviews (every match is in the response),
whereas GET `/api/books` caps its result list at `limit` per page. -/
theorem reviewsIndex_unpaginated (q : ReviewQuery) (db : DB) :
    (reviewsIndex q db).length
      = (db.reviews.filter (fun p => matchesReviewQuery q p.2)).length ∧
    (∀ p ∈ db.reviews, matchesReviewQuery q p.2 = true → populateBook db p ∈ reviewsIndex q db) ∧
    (∀ (qb : BookQuery) (db' : DB), (booksIndex qb db').books.length ≤ qb.limit.getD 10) := by
  refine ⟨?_, ?_, ?_⟩
  · unfold reviewsIndex
    rw [List.length_map, (List.perm_insertionSort _ _).length_eq]
  · intro p hp hm
    unfold reviewsIndex
    apply List.mem_map_of_mem
    rw [(List.perm_insertionSort _ _).mem_iff]
    exact List.mem_filter.mpr ⟨hp, hm⟩
  · intro qb db'
    unfold booksIndex
    exact List.length_take_le _ _

/-- Witness for C10: review 1 of the two-review store is reachable through
the unfiltered listing. -/
theorem reviewsIndex_unpaginated_witness :
    populateBook dbTwoReviews (1, reviewR 0 4 1)
      ∈ reviewsIndex allReviewsQuery dbTwoReviews :=
  (reviewsIndex_unpaginated allReviewsQuery dbTwoReviews).2.1 (1, reviewR 0 4 1)
    (by decide) (by rfl)

/-! ### C7 -/

theorem pages_eq_ceil (a b : Nat) (hb : 0 < b) :
    (((a + b - 1) / b : Nat) : ℤ) = ⌈(a : ℚ) / (b : ℚ)⌉ := by
  have hbQ : (0 : ℚ) < (b : ℚ) := by exact_mod_cast hb
  have hmul : ((a + b - 1) / b) * b ≤ a + b - 1 := Nat.div_mul_le_self _ _
  have hlt : a + b - 1 < ((a + b - 1) / b + 1) * b :=
    (Nat.div_lt_iff_lt_mul hb).mp (Nat.lt_succ_self _)
  set n := (a + b - 1) / b with hn
  have h1 : a ≤ n * b := by
    have hx : (n + 1) * b = n * b + b := Nat.succ_mul n b
    omega
  symm
  rw [Int.ceil_eq_iff]
  constructor
  · rcases Nat.eq_zero_or_pos n with hn0 | hn1
    · rw [hn0]
      push_cast
      have hnn : (0 : ℚ) ≤ (a : ℚ) / (b : ℚ) := div_nonneg (by positivity) (le_of_lt hbQ)
      linarith
    · have hge : b ≤ n * b := Nat.le_mul_of_pos_left b hn1
      have h2 : (n - 1) * b < a := by
        have hsub : (n - 1) * b = n * b - b := by rw [Nat.sub_one_mul]
        omega
      push_cast
      rw [lt_div_iff₀ hbQ]
      have h2Q : (((n - 1) * b : Nat) : ℚ) < (a : ℚ) := by exact_mod_cast h2
      rw [Nat.cast_mul, Nat.cast_sub hn1] at h2Q
      push_cast at h2Q
      linarith
  · rw [div_le_iff₀ hbQ]
    push_cast
    exact_mod_cast h1

/-- C7: GET `/api/books` is 1-indexed with defaults `page=1`, `limit=10`: the
response skips exactly `(page-1)*limit` matching books, returns at most
`limit` of them, and reports the total match count together with
`pages = ceil(total/limit)`. -/
theorem booksIndex_pagination (q : BookQuery) (db : DB) (hl : 0 < q.limit.getD 10) :
    (booksIndex q db).page = q.page.getD 1 ∧
    (booksIndex q db).limit = q.limit.getD 10 ∧
    (booksIndex q db).books =
      (((db.books.filter (fun p => matchesBookQuery q p.2)).insertionSort
          (fun a b => bookLe q.orderAsc a b = true)).drop
        ((q.page.getD 1 - 1) * q.limit.getD 10)).take (q.limit.getD 10) ∧
    (booksIndex q db).books.length =
      min (q.limit.getD 10)
        ((db.books.filter (fun p => matchesBookQuery q p.2)).length
          - (q.page.getD 1 - 1) * q.limit.getD 10) ∧
    (booksIndex q db).total = (db.books.filter (fun p => matchesBookQuery q p.2)).length ∧
    ((booksIndex q db).pages : ℤ) =
      ⌈((db.books.filter (fun p => matchesBookQuery q p.2)).length : ℚ)
        / (q.limit.getD 10 : ℚ)⌉ := by
  refine ⟨rfl, rfl, rfl, ?_, rfl, ?_⟩
  · show ((((db.books.filter (fun p => matchesBookQuery q p.2)).insertionSort
        (fun a b => bookLe q.orderAsc a b = true)).drop
          ((q.page.getD 1 - 1) * q.limit.getD 10)).take (q.limit.getD 10)).length = _
    rw [List.length_take, List.length_drop, (List.perm_insertionSort _ _).length_eq]
  · exact pages_eq_ceil _ _ hl

/-- Witness for C7: page 2, limit 10 over a 25-book collection skips 10,
returns 10, and reports `pages = 3`. -/
theorem booksIndex_pagination_witness :
    (booksIndex (pageQuery 2 10) db25).books.length =
      min ((pageQuery 2 10).limit.getD 10)
        ((db25.books.filter (fun p => matchesBookQuery (pageQuery 2 10) p.2)).length
          - ((pageQuery 2 10).page.getD 1 - 1) * (pageQuery 2 10).limit.getD 10) ∧
    (booksIndex (pageQuery 2 10) db25).books.length = 10 ∧
    (booksIndex (pageQuery 2 10) db25).total = 25 ∧
    (booksIndex (pageQuery 2 10) db25).pages = 3 :=
  ⟨(booksIndex_pagination (pageQuery 2 10) db25 (by decide)).2.2.2.1,
   by decide, by decide, by decide⟩

/-! ### C8 -/

theorem booksCreate_eq (input : BookInput) (db : DB) :
    booksCreate input db =
      if !validateBook input then (db, .badRequest)
      else if !mongooseValidBook (bookOfInput input db.nextId) then (db, .badRequest)
      else if db.books.any (fun p => p.2.isbn == (bookOfInput input db.nextId).isbn) then
        (db, .conflict)
      else
        ({ db with books := db.books ++ [(db.nextId, bookOfInput input db.nextId)],
                   nextId := db.nextId + 1 }, .created) := rfl

/-- C8: a Book creation that passes validation fails with the duplicate-ISBN
conflict (reported as HTTP 400) and persists nothing when a stored Book
already carries the same ISBN, and succeeds — appending the new Book — when
no stored Book does. -/
theorem booksCreate_isbn_unique (input : BookInput) (db : DB)
    (hv : validateBook input = true)
    (hm : mongooseValidBook (bookOfInput input db.nextId) = true) :
    ((∃ p ∈ db.books, p.2.isbn = trimS input.isbn) →
      booksCreate input db = (db, .conflict) ∧ statusCode (booksCreate input db).2 = 400) ∧
    ((∀ p ∈ db.books, p.2.isbn ≠ trimS input.isbn) →
      booksCreate input db =
        ({ db with books := db.books ++ [(db.nextId, bookOfInput input db.nextId)],
                   nextId := db.nextId + 1 }, .created)) := by
  constructor
  · intro hdup
    have hany : db.books.any (fun p => p.2.isbn == (bookOfInput input db.nextId).isbn) = true := by
      obtain ⟨p, hp, he⟩ := hdup
      exact List.any_eq_true.mpr ⟨p, hp, beq_iff_eq.mpr he⟩
    have heq : booksCreate input db = (db, .conflict) := by
      rw [booksCreate_eq, hv, hm, hany]
      rfl
    exact ⟨heq, by rw [heq]; rfl⟩
  · intro hfresh
    have hany : db.books.any (fun p => p.2.isbn == (bookOfInput input db.nextId).isbn) = false := by
      apply List.any_eq_false.mpr
      intro p hp
      exact fun hbeq => hfresh p hp (by simpa using hbeq)
    rw [booksCreate_eq, hv, hm, hany]
    rfl

/-- Witness for C8: the sample book (isbn "978-3-16-148410-0", year 2020,
genre "Fiction") is created in the empty store; creating it again conflicts
with status 400. -/
theorem booksCreate_isbn_unique_witness :
    (booksCreate sampleBookInput emptyDB).2 = .created ∧
    (booksCreate sampleBookInput dbOneBook = (dbOneBook, .conflict) ∧
     statusCode (booksCreate sampleBookInput dbOneBook).2 = 400) := by
  constructor
  · rw [(booksCreate_isbn_unique sampleBookInput emptyDB (by decide) (by decide)).2 (by decide)]
  · exact (booksCreate_isbn_unique sampleBookInput dbOneBook (by decide) (by decide)).1
      ⟨(0, bookOfInput sampleBookInput 0), by decide, by decide⟩

/-! ### C2: helper lemmas -/

theorem updEntry_of_forall_ne {β : Type} (id : Nat) (f : β → β) (l : List (Nat × β))
    (h : ∀ p ∈ l, (p.1 == id) = false) : updEntry id f l = l := by
  induction l with
  | nil => rfl
  | cons a t ih =>
    have ha := h a (List.mem_cons_self a t)
    unfold updEntry at *
    rw [List.map_cons, if_neg (by simp [ha]), ih (fun p hp => h p (List.mem_cons_of_mem a hp))]

theorem keyed_unique {β : Type} (l : List (Nat × β)) (h : (l.map Prod.fst).Nodup) :
    ∀ q ∈ l, ∀ q' ∈ l, q.1 = q'.1 → q = q' := by
  induction l with
  | nil =>
    intro q hq
    exact absurd hq (List.not_mem_nil q)
  | cons a t ih =>
    rw [List.map_cons, List.nodup_cons] at h
    intro q hq q' hq' he
    rcases List.mem_cons.mp hq with rfl | hq2 <;> rcases List.mem_cons.mp hq' with rfl | hq2'
    · rfl
    · exfalso
      apply h.1
      rw [he]
      exact List.mem_map_of_mem Prod.fst hq2'
    · exfalso
      apply h.1
      rw [← he]
      exact List.mem_map_of_mem Prod.fst hq2
    · exact ih h.2 q hq2 q' hq2' he

theorem find?_entry_eq (id : Nat) (db : DB) (old : Review)
    (h : lookupReview id db = some old) :
    db.reviews.find? (fun p => p.1 == id) = some (id, old) := by
  unfold lookupReview at h
  obtain ⟨e, he, h2⟩ := Option.map_eq_some'.mp h
  have hk := List.find?_some he
  simp only at hk
  obtain ⟨e1, e2⟩ := e
  have h1 : e1 = id := by simpa using hk
  have h2' : e2 = old := h2
  rw [h1, h2'] at he
  exact he

theorem consistentAt_eq_of_filter_eq {rvs rvs' : List (Nat × Review)} (p : Nat × Book)
    (h : rvs'.filter (fun q => q.2.book == p.1) = rvs.filter (fun q => q.2.book == p.1)) :
    consistentAt rvs' p = consistentAt rvs p := by
  unfold consistentAt
  rw [h]

theorem mem_books_setBookAgg {id : Nat} {a : ℚ} {n : Nat} {db : DB} {p : Nat × Book}
    (hp : p ∈ (setBookAgg id a n db).books) :
    (p.1 = id ∧ p.2.averageRating = a ∧ p.2.numberOfReviews = n) ∨ (p.1 ≠ id ∧ p ∈ db.books) := by
  unfold setBookAgg updEntry at hp
  dsimp only at hp
  obtain ⟨q, hq, hpe⟩ := List.mem_map.mp hp
  by_cases hk : (q.1 == id) = true
  · rw [if_pos hk] at hpe
    cases hpe
    exact Or.inl ⟨by simpa using hk, rfl, rfl⟩
  · rw [if_neg hk] at hpe
    cases hpe
    exact Or.inr ⟨by simpa using hk, hq⟩

theorem mem_books_updateBookRating {id : Nat} {db : DB} {p : Nat × Book}
    (hp : p ∈ (updateBookRating id db).books) :
    (p.1 = id ∧ consistentAt db.reviews p = true) ∨ (p.1 ≠ id ∧ p ∈ db.books) := by
  rw [updateBookRating_eq] at hp
  by_cases h : (reviewsFor id db).length = 0
  · rw [if_pos h] at hp
    rcases mem_books_setBookAgg hp with ⟨h1, h2, h3⟩ | ⟨h1, h2⟩
    · left
      refine ⟨h1, ?_⟩
      unfold consistentAt
      simp only [h1]
      have hrs : (db.reviews.filter (fun q => q.2.book == id)).length = 0 := h
      rw [hrs, h3, h2]
      simp
    · exact Or.inr ⟨h1, h2⟩
  · rw [if_neg h] at hp
    rcases mem_books_setBookAgg hp with ⟨h1, h2, h3⟩ | ⟨h1, h2⟩
    · left
      refine ⟨h1, ?_⟩
      unfold consistentAt
      simp only [h1]
      have hrs : db.reviews.filter (fun q => q.2.book == id) = reviewsFor id db := rfl
      rw [hrs, h3, h2, if_neg h, foldl_add_rating, zero_add]
      simp
    · exact Or.inr ⟨h1, h2⟩

theorem aggConsistent_updateBookRating (id : Nat) (db : DB)
    (h : ∀ p ∈ db.books, p.1 ≠ id → consistentAt db.reviews p = true) :
    aggConsistent (updateBookRating id db) = true := by
  unfold aggConsistent
  rw [List.all_eq_true]
  intro p hp
  rw [reviews_updateBookRating]
  rcases mem_books_updateBookRating hp with ⟨_, hc⟩ | ⟨hne, hmem⟩
  · exact hc
  · exact h p hmem hne

theorem filter_book_append (l : List (Nat × Review)) (x : Nat × Review) (k : Nat)
    (hx : (x.2.book == k) = false) :
    (l ++ [x]).filter (fun q => q.2.book == k) = l.filter (fun q => q.2.book == k) := by
  rw [List.filter_append]
  simp [List.filter_cons, hx]

theorem consistentAt_updEntry_same (id : Nat) (f : Review → Review) (l : List (Nat × Review))
    (p : Nat × Book)
    (hbook : ∀ r, (f r).book = r.book) (hrat : ∀ r, (f r).rating = r.rating) :
    consistentAt (updEntry id f l) p = consistentAt l p := by
  unfold consistentAt updEntry
  dsimp only
  have hpred : ((fun q : Nat × Review => q.2.book == p.1) ∘
      fun q : Nat × Review => if q.1 == id then (q.1, f q.2) else q)
      = fun q : Nat × Review => q.2.book == p.1 := by
    funext q
    by_cases hk : (q.1 == id) = true
    · simp [Function.comp, hk, hbook]
    · simp [Function.comp, hk]
  have hcomp : ((fun q : Nat × Review => (q.2.rating : ℚ)) ∘
      fun q : Nat × Review => if q.1 == id then (q.1, f q.2) else q)
      = fun q : Nat × Review => (q.2.rating : ℚ) := by
    funext q
    by_cases hk : (q.1 == id) = true
    · simp [Function.comp, hk, hrat]
    · simp [Function.comp, hk]
  rw [List.filter_map, hpred, List.length_map, List.map_map, hcomp]

theorem updEntry_cons {β : Type} (id : Nat) (f : β → β) (a : Nat × β) (t : List (Nat × β)) :
    updEntry id f (a :: t) = (if (a.1 == id) = true then (a.1, f a.2) else a) :: updEntry id f t :=
  rfl

theorem filter_updEntry_of_ne (id k : Nat) (f : Review → Review) (l : List (Nat × Review))
    (hnd : (l.map Prod.fst).Nodup) (old : Review)
    (hfind : l.find? (fun p => p.1 == id) = some (id, old))
    (hold : (old.book == k) = false) (hnew : ((f old).book == k) = false) :
    (updEntry id f l).filter (fun q => q.2.book == k) = l.filter (fun q => q.2.book == k) := by
  induction l with
  | nil => exact absurd hfind (by simp)
  | cons a t ih =>
    rw [List.map_cons, List.nodup_cons] at hnd
    by_cases ha : (a.1 == id) = true
    · have hfa : List.find? (fun p => p.1 == id) (a :: t) = some a :=
        List.find?_cons_of_pos t ha
      rw [hfa] at hfind
      have hae : a = (id, old) := Option.some.inj hfind
      subst hae
      have htno : ∀ p ∈ t, (p.1 == id) = false := by
        intro p hp
        have hne : p.1 ≠ id := by
          intro he
          have hmem : p.1 ∈ List.map Prod.fst t := List.mem_map_of_mem Prod.fst hp
          exact hnd.1 (he ▸ hmem)
        simpa using hne
      rw [updEntry_cons, updEntry_of_forall_ne id f t htno]
      simp [List.filter_cons, hnew, hold]
    · have hfa : List.find? (fun p => p.1 == id) (a :: t) = List.find? (fun p => p.1 == id) t :=
        List.find?_cons_of_neg t ha
      rw [hfa] at hfind
      rw [updEntry_cons, if_neg ha]
      rw [List.filter_cons, List.filter_cons]
      by_cases hak : (a.2.book == k) = true
      · rw [if_pos hak, if_pos hak]
        exact congrArg (a :: ·) (ih hnd.2 hfind)
      · rw [if_neg hak, if_neg hak]
        exact ih hnd.2 hfind

theorem filter_book_removeId (id k : Nat) (l : List (Nat × Review))
    (hnd : (l.map Prod.fst).Nodup) (old : Review)
    (hfind : l.find? (fun p => p.1 == id) = some (id, old))
    (hold : (old.book == k) = false) :
    (l.filter (fun p => p.1 != id)).filter (fun q => q.2.book == k)
      = l.filter (fun q => q.2.book == k) := by
  induction l with
  | nil => exact absurd hfind (by simp)
  | cons a t ih =>
    rw [List.map_cons, List.nodup_cons] at hnd
    by_cases ha : (a.1 == id) = true
    · have hfa : List.find? (fun p => p.1 == id) (a :: t) = some a :=
        List.find?_cons_of_pos t ha
      rw [hfa] at hfind
      have hae : a = (id, old) := Option.some.inj hfind
      subst hae
      have htall : t.filter (fun p => p.1 != id) = t := by
        apply List.filter_eq_self.mpr
        intro p hp
        have hne : p.1 ≠ id := by
          intro he
          have hmem : p.1 ∈ List.map Prod.fst t := List.mem_map_of_mem Prod.fst hp
          exact hnd.1 (he ▸ hmem)
        simpa using hne
      rw [List.filter_cons, List.filter_cons]
      simp [htall, hold]
    · have hfa : List.find? (fun p => p.1 == id) (a :: t) = List.find? (fun p => p.1 == id) t :=
        List.find?_cons_of_neg t ha
      rw [hfa] at hfind
      have ha' : (a.1 == id) = false := by simpa using ha
      have hba : (a.1 != id) = true := by
        rw [show (a.1 != id) = !(a.1 == id) from rfl, ha']
        rfl
      rw [List.filter_cons]
      rw [if_pos hba]
      rw [List.filter_cons, List.filter_cons]
      by_cases hak : (a.2.book == k) = true
      · rw [if_pos hak, if_pos hak]
        exact congrArg (a :: ·) (ih hnd.2 hfind)
      · rw [if_neg hak, if_neg hak]
        exact ih hnd.2 hfind

theorem reviewsCreate_eq (input : ReviewInput) (db : DB) :
    reviewsCreate input db =
      if !validateReview input then (db, .badRequest)
      else
        match lookupBook input.book db with
        | none => (db, .notFound)
        | some _ =>
          (updateBookRating input.book
            { db with reviews := db.reviews ++ [(db.nextId, reviewOfInput input db.nextId)],
                      nextId := db.nextId + 1 }, .created) := rfl

theorem aggConsistent_reviewsCreate (db : DB) (hc : aggConsistent db = true)
    (input : ReviewInput) :
    aggConsistent (reviewsCreate input db).1 = true := by
  rw [reviewsCreate_eq]
  cases hvb : validateReview input with
  | false => exact hc
  | true =>
    cases hlb : lookupBook input.book db with
    | none => exact hc
    | some b =>
      dsimp only
      apply aggConsistent_updateBookRating
      intro p hp hne
      have hcp : consistentAt db.reviews p = true := List.all_eq_true.mp hc p hp
      have hfil : (db.reviews ++ [(db.nextId, reviewOfInput input db.nextId)]).filter
          (fun q => q.2.book == p.1) = db.reviews.filter (fun q => q.2.book == p.1) :=
        filter_book_append _ _ _ (beq_false_of_ne (fun he => hne (by rw [← he]; rfl)))
      exact (consistentAt_eq_of_filter_eq p hfil).trans hcp

theorem aggConsistent_reviewsDelete (db : DB) (hwfr : (db.reviews.map Prod.fst).Nodup)
    (hc : aggConsistent db = true) (id : Nat) :
    aggConsistent (reviewsDelete id db).1 = true := by
  unfold reviewsDelete
  cases hlr : lookupReview id db with
  | none => exact hc
  | some old =>
    dsimp only
    apply aggConsistent_updateBookRating
    intro p hp hne
    have hcp : consistentAt db.reviews p = true := List.all_eq_true.mp hc p hp
    have hfind := find?_entry_eq id db old hlr
    have hfil := filter_book_removeId id p.1 db.reviews hwfr old hfind
      (beq_false_of_ne (Ne.symm hne))
    exact (consistentAt_eq_of_filter_eq p hfil).trans hcp

theorem aggConsistent_reviewsUpdate (db : DB) (hwfr : (db.reviews.map Prod.fst).Nodup)
    (hc : aggConsistent db = true) (id : Nat) (input : ReviewInput) :
    aggConsistent (reviewsUpdate id input db).1 = true := by
  unfold reviewsUpdate
  cases hvb : validateReview input with
  | false => exact hc
  | true =>
    cases hlb : lookupBook input.book db with
    | none => exact hc
    | some b =>
      cases hlr : lookupReview id db with
      | none => exact hc
      | some old =>
        dsimp only
        have hfind := find?_entry_eq id db old hlr
        have hstable : ∀ (p : Nat × Book), p.1 ≠ old.book → p.1 ≠ input.book →
            consistentAt (updEntry id (fun r => applyReviewUpdate r input) db.reviews) p
              = consistentAt db.reviews p := by
          intro p h1 h2
          exact consistentAt_eq_of_filter_eq p
            (filter_updEntry_of_ne id p.1 (fun r => applyReviewUpdate r input) db.reviews hwfr old
              hfind (beq_false_of_ne (Ne.symm h1)) (beq_false_of_ne (Ne.symm h2)))
        by_cases hcb : old.book ≠ input.book
        · rw [if_pos hcb]
          apply aggConsistent_updateBookRating
          intro p hp hne
          rw [reviews_updateBookRating]
          rcases mem_books_updateBookRating hp with ⟨hpe, hcons⟩ | ⟨hpne, hpmem⟩
          · exact hcons
          · exact (hstable p hpne hne).trans (List.all_eq_true.mp hc p hpmem)
        · rw [if_neg hcb]
          have hcb' : old.book = input.book := not_ne_iff.mp hcb
          apply aggConsistent_updateBookRating
          intro p hp hne
          exact (hstable p hne (hcb' ▸ hne)).trans (List.all_eq_true.mp hc p hp)

theorem aggConsistent_helpfulStep (db : DB) (hc : aggConsistent db = true) (id : Nat) :
    aggConsistent (helpfulStep id db) = true := by
  unfold helpfulStep reviewsHelpful
  cases hlr : lookupReview id db with
  | none => exact hc
  | some r =>
    dsimp only
    unfold aggConsistent
    rw [List.all_eq_true]
    intro p hp
    exact (consistentAt_updEntry_same id (fun r => { r with helpful := r.helpful + 1 })
      db.reviews p (fun _ => rfl) (fun _ => rfl)).trans (List.all_eq_true.mp hc p hp)

theorem aggConsistent_booksDelete (db : DB) (hc : aggConsistent db = true) (id : Nat) :
    aggConsistent (booksDelete id db).1 = true := by
  unfold booksDelete
  cases hlb : lookupBook id db with
  | none => exact hc
  | some b =>
    dsimp only
    unfold aggConsistent
    rw [List.all_eq_true]
    intro p hp
    have hp' : p ∈ db.books.filter (fun p => p.1 != id) := hp
    have hpm := (List.mem_filter.mp hp').1
    have hpne : p.1 ≠ id := by simpa using (List.mem_filter.mp hp').2
    have hfil : (db.reviews.filter (fun q => q.2.book != id)).filter (fun q => q.2.book == p.1)
        = db.reviews.filter (fun q => q.2.book == p.1) := by
      rw [List.filter_filter]
      apply List.filter_congr
      intro q _
      by_cases hqk : (q.2.book == p.1) = true
      · have hqe : q.2.book = p.1 := by simpa using hqk
        have hqne : (q.2.book != id) = true := by simp [hqe, hpne]
        rw [hqk, hqne]
        rfl
      · have hqk' : (q.2.book == p.1) = false := by simpa using hqk
        rw [hqk']
        simp
    exact (consistentAt_eq_of_filter_eq p hfil).trans (List.all_eq_true.mp hc p hpm)

theorem aggConsistent_booksCreate (db : DB)
    (hfresh : ∀ q ∈ db.reviews, q.2.book < db.nextId)
    (hc : aggConsistent db = true) (input : BookInput)
    (havg : input.averageRating = none) (hnum : input.numberOfReviews = none) :
    aggConsistent (booksCreate input db).1 = true := by
  rw [booksCreate_eq]
  cases hvb : validateBook input with
  | false => exact hc
  | true =>
    cases hm : mongooseValidBook (bookOfInput input db.nextId) with
    | false => exact hc
    | true =>
      cases hdup : db.books.any (fun p => p.2.isbn == (bookOfInput input db.nextId).isbn) with
      | true => exact hc
      | false =>
        have heq : booksCreate input db =
            ({ db with books := db.books ++ [(db.nextId, bookOfInput input db.nextId)],
                       nextId := db.nextId + 1 }, .created) := by
          rw [booksCreate_eq, hvb, hm, hdup]
          rfl
        rw [show (if (!true) = true then (db, Resp.badRequest)
            else
              if (!true) = true then (db, Resp.badRequest)
              else
                if false = true then (db, Resp.conflict)
                else
                  ({ db with books := db.books ++ [(db.nextId, bookOfInput input db.nextId)],
                             nextId := db.nextId + 1 }, Resp.created)) =
            ({ db with books := db.books ++ [(db.nextId, bookOfInput input db.nextId)],
                       nextId := db.nextId + 1 }, Resp.created) from rfl]
        unfold aggConsistent
        rw [List.all_eq_true]
        intro p hp
        have hp' : p ∈ db.books ++ [(db.nextId, bookOfInput input db.nextId)] := hp
        rcases List.mem_append.mp hp' with hpm | hpnew
        · exact List.all_eq_true.mp hc p hpm
        · have hpe : p = (db.nextId, bookOfInput input db.nextId) := by simpa using hpnew
          subst hpe
          unfold consistentAt
          dsimp only
          have hfil : db.reviews.filter (fun q => q.2.book == db.nextId) = [] := by
            apply List.filter_eq_nil_iff.mpr
            intro q hq
            simpa using Nat.ne_of_lt (hfresh q hq)
          rw [hfil,
            show (bookOfInput input db.nextId).numberOfReviews = 0 from by
              unfold bookOfInput
              rw [hnum]
              rfl,
            show (bookOfInput input db.nextId).averageRating = 0 from by
              unfold bookOfInput
              rw [havg]
              rfl]
          simp

theorem aggConsistent_booksUpdate (db : DB) (hc : aggConsistent db = true)
    (id : Nat) (input : BookInput)
    (havg : input.averageRating = none) (hnum : input.numberOfReviews = none) :
    aggConsistent (booksUpdate id input db).1 = true := by
  unfold booksUpdate
  cases hvb : validateBook input with
  | false => exact hc
  | true =>
    cases hlb : lookupBook id db with
    | none => exact hc
    | some old =>
      dsimp only
      cases hm : mongooseValidBook (applyBookUpdate old input) with
      | false => exact hc
      | true =>
        cases hdup : db.books.any (fun p => p.1 != id && p.2.isbn == trimS input.isbn) with
        | true => exact hc
        | false =>
          unfold aggConsistent
          rw [List.all_eq_true]
          intro p hp
          have hp' : p ∈ updEntry id (fun b => applyBookUpdate b input) db.books := hp
          unfold updEntry at hp'
          obtain ⟨q, hq, hpe⟩ := List.mem_map.mp hp'
          by_cases hk : (q.1 == id) = true
          · rw [if_pos hk] at hpe
            cases hpe
            have hsame : consistentAt db.reviews (q.1, applyBookUpdate q.2 input)
                = consistentAt db.reviews q := by
              unfold consistentAt
              dsimp only
              rw [show (applyBookUpdate q.2 input).numberOfReviews = q.2.numberOfReviews from by
                    unfold applyBookUpdate
                    rw [hnum]
                    rfl,
                  show (applyBookUpdate q.2 input).averageRating = q.2.averageRating from by
                    unfold applyBookUpdate
                    rw [havg]
                    rfl]
            exact hsame.trans (List.all_eq_true.mp hc q hq)
          · rw [if_neg hk] at hpe
            cases hpe
            exact List.all_eq_true.mp hc _ hq

/-! ### C2: counterexample, amended claim -/

/-- Counterexample to C2 as stated: POST `/api/books` hands the client body
straight to the store (`new Book(req.body)`), so a client can set
`averageRating` / `numberOfReviews` directly — the creation succeeds and the
resulting store violates the aggregate invariant (a book with
`averageRating = 5`, `numberOfReviews = 1` and no reviews at all). -/
theorem aggregate_invariant_cex :
    (booksCreate massAssignInput emptyDB).2 = .created ∧
    aggConsistent (booksCreate massAssignInput emptyDB).1 = false :=
  ⟨by with_unfolding_all rfl, by with_unfolding_all rfl⟩

/-- C2 (amended): in every well-formed store whose aggregates are in sync,
every Review-mutating operation (create, update, delete, helpful-increment)
and Book delete preserves the invariant that each Book's `averageRating` /
`numberOfReviews` equal the rounded mean and count of the Reviews referencing
it; Book create and Book update preserve it provided the client body omits
the two derived fields — the code does not itself prevent a client from
setting them directly (see the counterexample). -/
theorem aggregate_invariant (db : DB) (hwf : WF db) (hc : aggConsistent db = true) :
    (∀ input, aggConsistent (reviewsCreate input db).1 = true) ∧
    (∀ id input, aggConsistent (reviewsUpdate id input db).1 = true) ∧
    (∀ id, aggConsistent (reviewsDelete id db).1 = true) ∧
    (∀ id, aggConsistent (helpfulStep id db) = true) ∧
    (∀ id, aggConsistent (booksDelete id db).1 = true) ∧
    (∀ input, input.averageRating = none → input.numberOfReviews = none →
      aggConsistent (booksCreate input db).1 = true) ∧
    (∀ id input, input.averageRating = none → input.numberOfReviews = none →
      aggConsistent (booksUpdate id input db).1 = true) :=
  ⟨fun input => aggConsistent_reviewsCreate db hc input,
   fun id input => aggConsistent_reviewsUpdate db hwf.2.1 hc id input,
   fun id => aggConsistent_reviewsDelete db hwf.2.1 hc id,
   fun id => aggConsistent_helpfulStep db hc id,
   fun id => aggConsistent_booksDelete db hc id,
   fun input havg hnum =>
     aggConsistent_booksCreate db (fun q hq => (hwf.2.2.2 q hq).2) hc input havg hnum,
   fun id input havg hnum => aggConsistent_booksUpdate db hc id input havg hnum⟩

/-- Witness for the amended C2 at the concrete two-review store. -/
theorem aggregate_invariant_witness :
    aggConsistent (reviewsCreate sampleReviewInput dbTwoReviews).1 = true ∧
    aggConsistent (reviewsDelete 1 dbTwoReviews).1 = true ∧
    aggConsistent (helpfulStep 1 dbTwoReviews) = true ∧
    aggConsistent (booksDelete 0 dbTwoReviews).1 = true ∧
    aggConsistent (booksCreate sampleBookInput dbTwoReviews).1 = true := by
  have hwf : WF dbTwoReviews := ⟨by decide, by decide, by decide, by decide⟩
  have hc : aggConsistent dbTwoReviews = true := by with_unfolding_all rfl
  exact ⟨(aggregate_invariant dbTwoReviews hwf hc).1 sampleReviewInput,
    (aggregate_invariant dbTwoReviews hwf hc).2.2.1 1,
    (aggregate_invariant dbTwoReviews hwf hc).2.2.2.1 1,
    (aggregate_invariant dbTwoReviews hwf hc).2.2.2.2.1 0,
    (aggregate_invariant dbTwoReviews hwf hc).2.2.2.2.2.1 sampleBookInput rfl rfl⟩
